import Mathlib

/-!
# ksonnet `init` command: embedding of `cmd/init.go`

The handler `initCmd.RunE` and the package initialiser `init` of `cmd/init.go`
are embedded as pure functions.  Everything `RunE` calls that lives outside the
file (the working-directory lookup, `resolveContext`, `kubecfg.NewInitCmd`,
`InitCmd.Run`) is a field of a `World`; the calls `RunE` makes, with their
arguments, are recorded in a trace so that "step X is (not) invoked" and
"X is handed to Y" are statements about that trace.
-/

namespace Ksonnet

/-! ## Go values -/

/-- Go `string`. -/
abbrev GoString := String

/-- Go `error` value, identified by its message (`nil` is `Option.none`). -/
structure GoError where
  msg : GoString
deriving DecidableEq, Repr

/-- Go `len(s)` of a string: the number of bytes. -/
def len (s : GoString) : Nat := s.utf8ByteSize

/-! ## `path.Join` of the Go standard library -/

namespace Path

/-- Components of a slash-separated path (empty components are kept). -/
def splitSlash (cs : List Char) : List (List Char) :=
  cs.foldr
    (fun c acc =>
      if c = '/' then [] :: acc
      else
        match acc with
        | [] => [[c]]
        | x :: xs => (c :: x) :: xs)
    [[]]

/-- One step of `path.Clean` on the stack of components kept so far (top first):
empty and `.` components are dropped, `..` removes the component before it,
is dropped at the root and is kept at the start of a relative path. -/
def cleanStep (rooted : Bool) (out : List (List Char)) (comp : List Char) :
    List (List Char) :=
  if comp = [] ∨ comp = ['.'] then out
  else if comp = ['.', '.'] then
    match out with
    | [] => if rooted then [] else [comp]
    | top :: rest => if top = ['.', '.'] then comp :: out else rest
  else comp :: out

/-- Go `path.Clean`: the shortest path name equivalent to `p` by purely
lexical processing. -/
def Clean (p : GoString) : GoString :=
  if p = "" then "."
  else
    let rooted : Bool := p.data.head? = some '/'
    let comps := ((splitSlash p.data).foldl (cleanStep rooted) []).reverse
    let body := String.mk (List.intercalate ['/'] comps)
    if rooted then "/" ++ body
    else if body = "" then "."
    else body

/-- Go `path.Join`: the elements from the first non-empty one on are joined
with slashes and the result is cleaned; with no non-empty element the result
is the empty string. -/
def Join (elem : List GoString) : GoString :=
  match elem.dropWhile (fun e => e = "") with
  | [] => ""
  | es => Clean (String.mk (List.intercalate ['/'] (es.map String.data)))

end Path

/-- The type `metadata.AbsPath`, a string type holding an absolute path. -/
structure AbsPath where
  path : GoString
deriving DecidableEq, Repr

/-! ## Flag sets (`pflag.FlagSet`) -/

/-- One registered flag: its name, the type name of its value, the current
value and the default value as strings, and whether it was set. -/
structure Flag where
  name : GoString
  typ : GoString
  value : GoString
  defValue : GoString
  changed : Bool
deriving DecidableEq, Repr

/-- Flag set: the registered flags, in registration order. -/
abbrev FlagSet := List Flag

namespace FlagSet

/-- Flag registered under `name`, if any (`FlagSet.Lookup`). -/
def Lookup (fs : FlagSet) (name : GoString) : Option Flag :=
  fs.find? (fun f => f.name = name)

/-- Registration of a string flag with a default value (`FlagSet.String`). -/
def String (fs : FlagSet) (name value : GoString) : FlagSet :=
  fs ++ [{ name := name, typ := "string", value := value, defValue := value, changed := false }]

/-- Read of a string flag (`FlagSet.GetString`): fails when the flag is not
defined or is not of type string. -/
def GetString (fs : FlagSet) (name : GoString) : Except GoError GoString :=
  match fs.Lookup name with
  | none => .error ⟨"flag accessed but not defined: " ++ name⟩
  | some f =>
    if f.typ ≠ "string" then
      .error ⟨"trying to get string value of flag of type " ++ f.typ⟩
    else .ok f.value

/-- Assignment of a flag from the command line (`FlagSet.Set`): fails when the
flag is not defined, otherwise stores the value and marks the flag as set. -/
def Set (fs : FlagSet) (name value : GoString) : Except GoError FlagSet :=
  match fs.Lookup name with
  | none => .error ⟨"no such flag -" ++ name⟩
  | some _ =>
    .ok (fs.map (fun f => if f.name = name then { f with value := value, changed := true } else f))

/-- The assignments of a command line, applied left to right; the first
failing one aborts. -/
def SetAll (fs : FlagSet) : List (GoString × GoString) → Except GoError FlagSet
  | [] => .ok fs
  | (n, v) :: rest =>
    match fs.Set n v with
    | .error e => .error e
    | .ok fs1 => SetAll fs1 rest

end FlagSet

/-! ## Names declared elsewhere in package `cmd` -/

/-- Modelled from the spec: the constant `flagAPISpec` is declared outside
`init.go`; the spec names the flag `--api-spec`. -/
def flagAPISpec : GoString := "api-spec"

/-- Modelled from the spec: the constant `flagEnvContext` is declared outside
`init.go`; the spec names the flag `--context`. -/
def flagEnvContext : GoString := "context"

/-- Modelled from the spec: the name of the namespace flag, which `init.go`
never mentions; the spec names the flag `--namespace`. -/
def flagEnvNamespace : GoString := "namespace"

/-! ## The API-spec selector -/

/-- The sources an API-spec selector can designate. -/
inductive APISpecSource where
  | VersionTag (tag : GoString)
  | FilePath (path : GoString)
  | Live
deriving DecidableEq, Repr

/-- The characters of `s` after the leading `p`, when `s` starts with `p`. -/
def dropLeading : List Char → List Char → Option (List Char)
  | [], s => some s
  | _ :: _, [] => none
  | p :: ps, c :: cs => if p = c then dropLeading ps cs else none

/-- Modelled from the spec: the selector grammar of the SpecSelector component,
whose code is not in `init.go`.  `"version:" TAG` is a version tag,
`"file:" PATH` a local file, the empty selector the live cluster, and any
other string is rejected (`none`). -/
def parseSpec (raw : GoString) : Option APISpecSource :=
  if raw = "" then some APISpecSource.Live
  else
    match dropLeading "version:".data raw.data with
    | some tag => some (APISpecSource.VersionTag (String.mk tag))
    | none =>
      match dropLeading "file:".data raw.data with
      | some path => some (APISpecSource.FilePath (String.mk path))
      | none => none

/-! ## The collaborators of `RunE` and the trace of its calls -/

/-- The functions `RunE` calls that are defined outside `init.go`, as they
behave at the one point of the run where each can be called: `os.Getwd`,
`resolveContext`, `kubecfg.NewInitCmd` and the `Run` method of the command it
returns.  Optional arguments (Go pointers) are `Option`s. -/
structure World (Cmd : Type) where
  Getwd : Except GoError GoString
  resolveContext : Option GoString → Except GoError (GoString × GoString)
  NewInitCmd : GoString → AbsPath → GoString → Option GoString → Option GoString →
    Except GoError Cmd
  Run : Cmd → Option GoError

/-- One call made by `RunE`, with the arguments it passes. -/
inductive Event where
  | Getwd
  | GetString (name : GoString)
  | Infof (line : GoString)
  | resolveContext (context : Option GoString)
  | NewInitCmd (name : GoString) (rootPath : AbsPath) (specFlag : GoString)
      (serverURI ns : Option GoString)
  | Run
deriving DecidableEq, Repr

/-- What a run of `RunE` returns (`none` is Go's `nil`) and the calls it made,
in order. -/
structure Outcome where
  err : Option GoError
  trace : List Event
deriving DecidableEq, Repr

/-- The error `RunE` builds itself when the argument count is wrong. -/
def errSingleArgument : GoError :=
  ⟨"'init' takes a single argument that names the application we're initializing"⟩

/-- The line `RunE` logs: `"Creating a new app '%s' at path '%s'"`. -/
def creatingLine (appName : GoString) (appRoot : AbsPath) : GoString :=
  "Creating a new app '" ++ appName ++ "' at path '" ++ appRoot.path ++ "'"

/-- The handler `initCmd.RunE` of `init.go`, on the flag set of the command
and the positional arguments. -/
def RunE {Cmd : Type} (w : World Cmd) (flags : FlagSet) (args : List GoString) : Outcome :=
  if h : args.length ≠ 1 then
    ⟨some errSingleArgument, []⟩
  else
    let appName := args[0]
    let t1 := [Event.Getwd]
    match w.Getwd with
    | .error err => ⟨some err, t1⟩
    | .ok appDir =>
      let appRoot := AbsPath.mk (Path.Join [appDir, appName])
      let t2 := t1 ++ [Event.GetString flagAPISpec]
      match flags.GetString flagAPISpec with
      | .error err => ⟨some err, t2⟩
      | .ok specFlag =>
        let t3 := t2 ++ [Event.GetString flagEnvContext]
        match flags.GetString flagEnvContext with
        | .error err => ⟨some err, t3⟩
        | .ok context =>
          let t4 := t3 ++ [Event.Infof (creatingLine appName appRoot)]
          let ctx : Option GoString := if len context ≠ 0 then some context else none
          let t5 := t4 ++ [Event.resolveContext ctx]
          match w.resolveContext ctx with
          | .error err => ⟨some err, t5⟩
          | .ok (uri, ns) =>
            let t6 := t5 ++ [Event.NewInitCmd appName appRoot specFlag (some uri) (some ns)]
            match w.NewInitCmd appName appRoot specFlag (some uri) (some ns) with
            | .error err => ⟨some err, t6⟩
            | .ok c => ⟨w.Run c, t6 ++ [Event.Run]⟩

/-- The package initialiser `init` of `init.go`, as far as the flags of the
command go: it registers `--api-spec` with its default, then
`bindClientGoFlags` (defined outside `init.go`) adds the flags `clientGo`. -/
def init (clientGo : List Flag) : FlagSet :=
  FlagSet.String [] flagAPISpec "version:v1.7.0" ++ clientGo

/-! ## Reading a trace -/

/-- The arguments of a call of `kubecfg.NewInitCmd`: name, root, API-spec
selector, server URI and namespace. -/
abbrev InitArgs := GoString × AbsPath × GoString × Option GoString × Option GoString

/-- The arguments handed to `kubecfg.NewInitCmd` by the calls of a trace. -/
def callsOfNewInitCmd (t : List Event) : List InitArgs :=
  t.filterMap fun ev =>
    match ev with
    | Event.NewInitCmd name rootPath specFlag serverURI ns =>
      some (name, rootPath, specFlag, serverURI, ns)
    | _ => none

/-- The context arguments of the calls of `resolveContext` in a trace. -/
def callsOfResolveContext (t : List Event) : List (Option GoString) :=
  t.filterMap fun ev =>
    match ev with
    | Event.resolveContext context => some context
    | _ => none

/-- The lines logged through `log.Infof` in a trace. -/
def linesLogged (t : List Event) : List GoString :=
  t.filterMap fun ev =>
    match ev with
    | Event.Infof line => some line
    | _ => none

/-! ## A concrete setting for evaluating the handler -/

/-- Modelled from the spec: `bindClientGoFlags` is defined outside `init.go`;
the spec lists `--context` and `--namespace` as optional string flags of the
command, registered here with an empty default. -/
def clientGoFlags : List Flag :=
  [{ name := flagEnvContext, typ := "string", value := "", defValue := "", changed := false },
   { name := flagEnvNamespace, typ := "string", value := "", defValue := "", changed := false }]

/-- A world in `/home/u` whose kubeconfig has the current context
`(https://10.0.0.1:6443, kube-system)` and the context `dev` with
`(https://dev:6443, default)`, and in which creating the application succeeds. -/
def sampleWorld : World Unit where
  Getwd := .ok "/home/u"
  resolveContext := fun context =>
    match context with
    | none => .ok ("https://10.0.0.1:6443", "kube-system")
    | some name =>
      if name = "dev" then .ok ("https://dev:6443", "default")
      else .error ⟨"context '" ++ name ++ "' does not exist in the kubeconfig file"⟩
  NewInitCmd := fun _ _ _ _ _ => .ok ()
  Run := fun _ => none

/-- The world of `sampleWorld` without any kubeconfig: the coordinates are empty. -/
def bareWorld : World Unit where
  Getwd := .ok "/home/u"
  resolveContext := fun _ => .ok ("", "")
  NewInitCmd := fun _ _ _ _ _ => .ok ()
  Run := fun _ => none

/-- The flag set after the command line `--context=dev --namespace=dc-west`. -/
def devFlags : FlagSet :=
  [{ name := flagAPISpec, typ := "string", value := "version:v1.7.0",
     defValue := "version:v1.7.0", changed := false },
   { name := flagEnvContext, typ := "string", value := "dev", defValue := "", changed := true },
   { name := flagEnvNamespace, typ := "string", value := "dc-west", defValue := "",
     changed := true }]

/-- The flag set after the command line `--context=prod`. -/
def prodFlags : FlagSet :=
  [{ name := flagAPISpec, typ := "string", value := "version:v1.7.0",
     defValue := "version:v1.7.0", changed := false },
   { name := flagEnvContext, typ := "string", value := "prod", defValue := "", changed := true },
   { name := flagEnvNamespace, typ := "string", value := "", defValue := "", changed := false }]

/-- The flag set after the command line `--api-spec=file:swagger.json`. -/
def fileFlags : FlagSet :=
  [{ name := flagAPISpec, typ := "string", value := "file:swagger.json",
     defValue := "version:v1.7.0", changed := true },
   { name := flagEnvContext, typ := "string", value := "", defValue := "", changed := false },
   { name := flagEnvNamespace, typ := "string", value := "", defValue := "", changed := false }]

/-! ## Unfolding the handler along its steps -/

/-- A Go string has length zero exactly when it is the empty string. -/
theorem len_eq_zero_iff (s : GoString) : len s = 0 ↔ s = "" := by
  obtain ⟨cs⟩ := s
  constructor
  · intro h
    have hcs : cs = [] := String.utf8Len_eq_zero.mp h
    rw [hcs]
  · intro h
    rw [h]
    rfl

/-- A wrong argument count ends the run at once with the fixed error. -/
theorem RunE_of_length_ne {Cmd : Type} (w : World Cmd) (flags : FlagSet)
    (args : List GoString) (h : args.length ≠ 1) :
    RunE w flags args = ⟨some errSingleArgument, []⟩ := by
  simp [RunE, h]

/-- A failing `os.Getwd` ends the run after that call. -/
theorem RunE_of_Getwd_error {Cmd : Type} (w : World Cmd) (flags : FlagSet) (a : GoString)
    (e : GoError) (hd : w.Getwd = .error e) :
    RunE w flags [a] = ⟨some e, [Event.Getwd]⟩ := by
  simp [RunE, hd]

/-- A failing read of the API-spec flag ends the run after that read. -/
theorem RunE_of_spec_error {Cmd : Type} (w : World Cmd) (flags : FlagSet) (a d : GoString)
    (e : GoError) (hd : w.Getwd = .ok d) (hs : flags.GetString flagAPISpec = .error e) :
    RunE w flags [a] = ⟨some e, [Event.Getwd, Event.GetString flagAPISpec]⟩ := by
  simp [RunE, hd, hs]

/-- A failing read of the context flag ends the run after that read. -/
theorem RunE_of_context_error {Cmd : Type} (w : World Cmd) (flags : FlagSet)
    (a d s : GoString) (e : GoError) (hd : w.Getwd = .ok d)
    (hs : flags.GetString flagAPISpec = .ok s)
    (hc : flags.GetString flagEnvContext = .error e) :
    RunE w flags [a] =
      ⟨some e, [Event.Getwd, Event.GetString flagAPISpec, Event.GetString flagEnvContext]⟩ := by
  simp [RunE, hd, hs, hc]

/-- A failing `resolveContext` ends the run after the log line and that call. -/
theorem RunE_of_resolve_error {Cmd : Type} (w : World Cmd) (flags : FlagSet)
    (a d s c : GoString) (e : GoError) (hd : w.Getwd = .ok d)
    (hs : flags.GetString flagAPISpec = .ok s)
    (hc : flags.GetString flagEnvContext = .ok c)
    (hr : w.resolveContext (if len c ≠ 0 then some c else none) = .error e) :
    RunE w flags [a] =
      ⟨some e, [Event.Getwd, Event.GetString flagAPISpec, Event.GetString flagEnvContext,
        Event.Infof (creatingLine a ⟨Path.Join [d, a]⟩),
        Event.resolveContext (if len c ≠ 0 then some c else none)]⟩ := by
  simp only [ne_eq, ite_not] at hr
  simp only [RunE, hd, hs, hc]
  simp [hr]

/-- A failing `kubecfg.NewInitCmd` ends the run after that call. -/
theorem RunE_of_NewInitCmd_error {Cmd : Type} (w : World Cmd) (flags : FlagSet)
    (a d s c u n : GoString) (e : GoError) (hd : w.Getwd = .ok d)
    (hs : flags.GetString flagAPISpec = .ok s)
    (hc : flags.GetString flagEnvContext = .ok c)
    (hr : w.resolveContext (if len c ≠ 0 then some c else none) = .ok (u, n))
    (hn : w.NewInitCmd a ⟨Path.Join [d, a]⟩ s (some u) (some n) = .error e) :
    RunE w flags [a] =
      ⟨some e, [Event.Getwd, Event.GetString flagAPISpec, Event.GetString flagEnvContext,
        Event.Infof (creatingLine a ⟨Path.Join [d, a]⟩),
        Event.resolveContext (if len c ≠ 0 then some c else none),
        Event.NewInitCmd a ⟨Path.Join [d, a]⟩ s (some u) (some n)]⟩ := by
  simp only [ne_eq, ite_not] at hr
  simp only [RunE, hd, hs, hc]
  simp [hr, hn]

/-- Once `kubecfg.NewInitCmd` has returned a command, the run ends with the
result of its `Run`. -/
theorem RunE_of_NewInitCmd_ok {Cmd : Type} (w : World Cmd) (flags : FlagSet)
    (a d s c u n : GoString) (cmd : Cmd) (hd : w.Getwd = .ok d)
    (hs : flags.GetString flagAPISpec = .ok s)
    (hc : flags.GetString flagEnvContext = .ok c)
    (hr : w.resolveContext (if len c ≠ 0 then some c else none) = .ok (u, n))
    (hn : w.NewInitCmd a ⟨Path.Join [d, a]⟩ s (some u) (some n) = .ok cmd) :
    RunE w flags [a] =
      ⟨w.Run cmd, [Event.Getwd, Event.GetString flagAPISpec, Event.GetString flagEnvContext,
        Event.Infof (creatingLine a ⟨Path.Join [d, a]⟩),
        Event.resolveContext (if len c ≠ 0 then some c else none),
        Event.NewInitCmd a ⟨Path.Join [d, a]⟩ s (some u) (some n), Event.Run]⟩ := by
  simp only [ne_eq, ite_not] at hr
  simp only [RunE, hd, hs, hc]
  simp [hr, hn]

/-- A list of length one is a singleton. -/
theorem eq_singleton_of_length {α : Type} (l : List α) (h : ¬ l.length ≠ 1) :
    ∃ a, l = [a] := by
  match l, h with
  | [a], _ => exact ⟨a, rfl⟩
  | [], h => exact absurd (by simp) h
  | _ :: _ :: _, h => exact absurd (by simp) h

/-! ## Flags that the command line leaves alone -/

/-- Updating the flags named `n` does not change which flag is found under
another name. -/
theorem find_map_update (fs : List Flag) (n v m : GoString) (hne : n ≠ m) :
    (fs.map (fun f => if f.name = n then { f with value := v, changed := true } else f)).find?
        (fun f => f.name = m) =
      fs.find? (fun f => f.name = m) := by
  induction fs with
  | nil => rfl
  | cons f rest ih =>
    rw [List.map_cons, List.find?_cons, List.find?_cons, ih]
    by_cases hfn : f.name = n
    · have hfm : ¬ f.name = m := fun h => hne (hfn.symm.trans h)
      simp [hfn, hfm, hne]
    · simp [hfn]

/-- Setting one flag leaves the lookup of every other flag as it was. -/
theorem Lookup_Set_of_ne (fs fs1 : FlagSet) (n v m : GoString) (hne : n ≠ m)
    (h : fs.Set n v = .ok fs1) : fs1.Lookup m = fs.Lookup m := by
  unfold FlagSet.Set at h
  cases hl : fs.Lookup n with
  | none => simp [hl] at h
  | some f =>
    simp only [hl] at h
    cases h
    exact find_map_update fs n v m hne

/-- A command line that does not name a flag leaves its lookup as it was. -/
theorem Lookup_SetAll_of_not_mem (sets : List (GoString × GoString)) (fs fs1 : FlagSet)
    (m : GoString) (hm : ∀ p ∈ sets, p.1 ≠ m) (h : fs.SetAll sets = .ok fs1) :
    fs1.Lookup m = fs.Lookup m := by
  induction sets generalizing fs with
  | nil =>
    simp only [FlagSet.SetAll] at h
    cases h
    rfl
  | cons p rest ih =>
    obtain ⟨n, v⟩ := p
    simp only [FlagSet.SetAll] at h
    cases hs : fs.Set n v with
    | error e => simp [hs] at h
    | ok fs2 =>
      simp only [hs] at h
      have hrest : ∀ q ∈ rest, q.1 ≠ m := fun q hq => hm q (List.mem_cons_of_mem _ hq)
      have hn : n ≠ m := hm (n, v) (List.mem_cons_self _ _)
      rw [ih fs2 hrest h]
      exact Lookup_Set_of_ne fs fs2 n v m hn hs

/-- After `init`, the API-spec flag is the string flag registered with the
default `version:v1.7.0`, whatever `bindClientGoFlags` adds. -/
theorem Lookup_init (clientGo : List Flag) :
    (init clientGo).Lookup flagAPISpec =
      some { name := flagAPISpec, typ := "string", value := "version:v1.7.0",
             defValue := "version:v1.7.0", changed := false } := by
  simp [init, FlagSet.String, FlagSet.Lookup, List.find?]

/-- When the command line does not name the API-spec flag, reading it gives
the registered default. -/
theorem GetString_default (clientGo : List Flag) (sets : List (GoString × GoString))
    (flags : FlagSet) (hm : ∀ p ∈ sets, p.1 ≠ flagAPISpec)
    (h : (init clientGo).SetAll sets = .ok flags) :
    flags.GetString flagAPISpec = .ok "version:v1.7.0" := by
  unfold FlagSet.GetString
  rw [Lookup_SetAll_of_not_mem sets (init clientGo) flags flagAPISpec hm h, Lookup_init]
  rfl

/-! ## What a run that got past the flag reads has called -/

/-- A successful run had one argument, a working directory and both flags. -/
theorem reads_of_success {Cmd : Type} (w : World Cmd) (flags : FlagSet)
    (args : List GoString) (h : (RunE w flags args).err = none) :
    ∃ a d s c, args = [a] ∧ w.Getwd = .ok d ∧ flags.GetString flagAPISpec = .ok s ∧
      flags.GetString flagEnvContext = .ok c := by
  by_cases hlen : args.length ≠ 1
  · rw [RunE_of_length_ne w flags args hlen] at h
    cases h
  · obtain ⟨a, rfl⟩ := eq_singleton_of_length args hlen
    cases hd : w.Getwd with
    | error e =>
      rw [RunE_of_Getwd_error w flags a e hd] at h
      cases h
    | ok d =>
      cases hs : flags.GetString flagAPISpec with
      | error e =>
        rw [RunE_of_spec_error w flags a d e hd hs] at h
        cases h
      | ok s =>
        cases hc : flags.GetString flagEnvContext with
        | error e =>
          rw [RunE_of_context_error w flags a d s e hd hs hc] at h
          cases h
        | ok c => exact ⟨a, d, s, c, rfl, rfl, rfl, rfl⟩

/-- Past the flag reads, the trace starts with the two reads, the log line and
the call of `resolveContext`, and goes on with calls of `NewInitCmd` and `Run`
only. -/
theorem trace_of_reads {Cmd : Type} (w : World Cmd) (flags : FlagSet) (a d s c : GoString)
    (hd : w.Getwd = .ok d) (hs : flags.GetString flagAPISpec = .ok s)
    (hc : flags.GetString flagEnvContext = .ok c) :
    ∃ rest, (RunE w flags [a]).trace =
        [Event.Getwd, Event.GetString flagAPISpec, Event.GetString flagEnvContext,
          Event.Infof (creatingLine a ⟨Path.Join [d, a]⟩),
          Event.resolveContext (if len c ≠ 0 then some c else none)] ++ rest ∧
      callsOfResolveContext rest = [] ∧ linesLogged rest = [] := by
  cases hr : w.resolveContext (if len c ≠ 0 then some c else none) with
  | error e =>
    rw [RunE_of_resolve_error w flags a d s c e hd hs hc hr]
    exact ⟨[], rfl, rfl, rfl⟩
  | ok p =>
    obtain ⟨u, n⟩ := p
    cases hn : w.NewInitCmd a ⟨Path.Join [d, a]⟩ s (some u) (some n) with
    | error e =>
      rw [RunE_of_NewInitCmd_error w flags a d s c u n e hd hs hc hr hn]
      exact ⟨[Event.NewInitCmd a ⟨Path.Join [d, a]⟩ s (some u) (some n)], rfl, rfl, rfl⟩
    | ok cmd =>
      rw [RunE_of_NewInitCmd_ok w flags a d s c u n cmd hd hs hc hr hn]
      exact ⟨[Event.NewInitCmd a ⟨Path.Join [d, a]⟩ s (some u) (some n), Event.Run],
        rfl, rfl, rfl⟩

/-- Past the flag reads, `resolveContext` is called once, with the optional
context built from the flag. -/
theorem callsOfResolveContext_of_reads {Cmd : Type} (w : World Cmd) (flags : FlagSet)
    (a d s c : GoString) (hd : w.Getwd = .ok d) (hs : flags.GetString flagAPISpec = .ok s)
    (hc : flags.GetString flagEnvContext = .ok c) :
    callsOfResolveContext (RunE w flags [a]).trace =
      [if len c ≠ 0 then some c else none] := by
  obtain ⟨rest, ht, hrest, _⟩ := trace_of_reads w flags a d s c hd hs hc
  rw [ht]
  unfold callsOfResolveContext at hrest ⊢
  rw [List.filterMap_append, hrest]
  rfl

/-- Past the flag reads, one line is logged: the "Creating a new app" line. -/
theorem linesLogged_of_reads {Cmd : Type} (w : World Cmd) (flags : FlagSet)
    (a d s c : GoString) (hd : w.Getwd = .ok d) (hs : flags.GetString flagAPISpec = .ok s)
    (hc : flags.GetString flagEnvContext = .ok c) :
    linesLogged (RunE w flags [a]).trace = [creatingLine a ⟨Path.Join [d, a]⟩] := by
  obtain ⟨rest, ht, _, hrest⟩ := trace_of_reads w flags a d s c hd hs hc
  rw [ht]
  unfold linesLogged at hrest ⊢
  rw [List.filterMap_append, hrest]
  rfl

/-- Once `resolveContext` has succeeded, `NewInitCmd` is called once, with the
name, the root, the selector read from the flag and the two coordinates. -/
theorem callsOfNewInitCmd_of_resolve {Cmd : Type} (w : World Cmd) (flags : FlagSet)
    (a d s c u n : GoString) (hd : w.Getwd = .ok d)
    (hs : flags.GetString flagAPISpec = .ok s)
    (hc : flags.GetString flagEnvContext = .ok c)
    (hr : w.resolveContext (if len c ≠ 0 then some c else none) = .ok (u, n)) :
    callsOfNewInitCmd (RunE w flags [a]).trace =
      [(a, ⟨Path.Join [d, a]⟩, s, some u, some n)] := by
  cases hn : w.NewInitCmd a ⟨Path.Join [d, a]⟩ s (some u) (some n) with
  | error e =>
    rw [RunE_of_NewInitCmd_error w flags a d s c u n e hd hs hc hr hn]
    rfl
  | ok cmd =>
    rw [RunE_of_NewInitCmd_ok w flags a d s c u n cmd hd hs hc hr hn]
    rfl

/-- Once `resolveContext` has succeeded, the result of the run is that of
`NewInitCmd` followed by `Run`. -/
theorem err_of_resolve {Cmd : Type} (w : World Cmd) (flags : FlagSet)
    (a d s c u n : GoString) (hd : w.Getwd = .ok d)
    (hs : flags.GetString flagAPISpec = .ok s)
    (hc : flags.GetString flagEnvContext = .ok c)
    (hr : w.resolveContext (if len c ≠ 0 then some c else none) = .ok (u, n)) :
    (RunE w flags [a]).err =
      match w.NewInitCmd a ⟨Path.Join [d, a]⟩ s (some u) (some n) with
      | .error e => some e
      | .ok cmd => w.Run cmd := by
  cases hn : w.NewInitCmd a ⟨Path.Join [d, a]⟩ s (some u) (some n) with
  | error e => rw [RunE_of_NewInitCmd_error w flags a d s c u n e hd hs hc hr hn]
  | ok cmd => rw [RunE_of_NewInitCmd_ok w flags a d s c u n cmd hd hs hc hr hn]

/-- A line is logged as many times as it occurs among the lines logged. -/
theorem count_Infof (t : List Event) (line : GoString) :
    t.count (Event.Infof line) = (linesLogged t).count line := by
  induction t with
  | nil => rfl
  | cons ev rest ih =>
    cases ev with
    | Infof l =>
      have hl : linesLogged (Event.Infof l :: rest) = l :: linesLogged rest := rfl
      rw [hl, List.count_cons, List.count_cons, ih]
      by_cases hll : l = line
      · simp [hll]
      · have hne : ¬ Event.Infof l = Event.Infof line := fun h => hll (Event.Infof.inj h)
        simp [hll, hne]
    | Getwd =>
      have hl : linesLogged (Event.Getwd :: rest) = linesLogged rest := rfl
      rw [hl, List.count_cons, ih]
      simp
    | GetString name =>
      have hl : linesLogged (Event.GetString name :: rest) = linesLogged rest := rfl
      rw [hl, List.count_cons, ih]
      simp
    | resolveContext context =>
      have hl : linesLogged (Event.resolveContext context :: rest) = linesLogged rest := rfl
      rw [hl, List.count_cons, ih]
      simp
    | NewInitCmd name rootPath specFlag serverURI ns =>
      have hl : linesLogged (Event.NewInitCmd name rootPath specFlag serverURI ns :: rest) =
          linesLogged rest := rfl
      rw [hl, List.count_cons, ih]
      simp
    | Run =>
      have hl : linesLogged (Event.Run :: rest) = linesLogged rest := rfl
      rw [hl, List.count_cons, ih]
      simp

/-! ## The claims -/

/-- C1: `RunE` short-circuits on the first failure.  It returns `nil` exactly
when there is one argument and `os.Getwd`, the read of the API-spec flag, the
read of the context flag, `resolveContext`, `kubecfg.NewInitCmd` and `Run` all
succeed, in that order; otherwise it returns the error of the first failing
step unchanged, and the calls it has made stop at that step. -/
theorem RunE_short_circuits {Cmd : Type} (w : World Cmd) (flags : FlagSet)
    (args : List GoString) :
    ((RunE w flags args).err = none ↔
      ∃ a d s c u n cmd, args = [a] ∧ w.Getwd = .ok d ∧
        flags.GetString flagAPISpec = .ok s ∧ flags.GetString flagEnvContext = .ok c ∧
        w.resolveContext (if len c ≠ 0 then some c else none) = .ok (u, n) ∧
        w.NewInitCmd a ⟨Path.Join [d, a]⟩ s (some u) (some n) = .ok cmd ∧
        w.Run cmd = none) ∧
    (args.length ≠ 1 → RunE w flags args = ⟨some errSingleArgument, []⟩) ∧
    (∀ a e, args = [a] → w.Getwd = .error e →
      RunE w flags args = ⟨some e, [Event.Getwd]⟩) ∧
    (∀ a d e, args = [a] → w.Getwd = .ok d → flags.GetString flagAPISpec = .error e →
      RunE w flags args = ⟨some e, [Event.Getwd, Event.GetString flagAPISpec]⟩) ∧
    (∀ a d s e, args = [a] → w.Getwd = .ok d → flags.GetString flagAPISpec = .ok s →
      flags.GetString flagEnvContext = .error e →
      RunE w flags args =
        ⟨some e, [Event.Getwd, Event.GetString flagAPISpec,
          Event.GetString flagEnvContext]⟩) ∧
    (∀ a d s c e, args = [a] → w.Getwd = .ok d → flags.GetString flagAPISpec = .ok s →
      flags.GetString flagEnvContext = .ok c →
      w.resolveContext (if len c ≠ 0 then some c else none) = .error e →
      RunE w flags args =
        ⟨some e, [Event.Getwd, Event.GetString flagAPISpec, Event.GetString flagEnvContext,
          Event.Infof (creatingLine a ⟨Path.Join [d, a]⟩),
          Event.resolveContext (if len c ≠ 0 then some c else none)]⟩) ∧
    (∀ a d s c u n e, args = [a] → w.Getwd = .ok d → flags.GetString flagAPISpec = .ok s →
      flags.GetString flagEnvContext = .ok c →
      w.resolveContext (if len c ≠ 0 then some c else none) = .ok (u, n) →
      w.NewInitCmd a ⟨Path.Join [d, a]⟩ s (some u) (some n) = .error e →
      RunE w flags args =
        ⟨some e, [Event.Getwd, Event.GetString flagAPISpec, Event.GetString flagEnvContext,
          Event.Infof (creatingLine a ⟨Path.Join [d, a]⟩),
          Event.resolveContext (if len c ≠ 0 then some c else none),
          Event.NewInitCmd a ⟨Path.Join [d, a]⟩ s (some u) (some n)]⟩) ∧
    (∀ a d s c u n cmd e, args = [a] → w.Getwd = .ok d →
      flags.GetString flagAPISpec = .ok s → flags.GetString flagEnvContext = .ok c →
      w.resolveContext (if len c ≠ 0 then some c else none) = .ok (u, n) →
      w.NewInitCmd a ⟨Path.Join [d, a]⟩ s (some u) (some n) = .ok cmd →
      w.Run cmd = some e →
      RunE w flags args =
        ⟨some e, [Event.Getwd, Event.GetString flagAPISpec, Event.GetString flagEnvContext,
          Event.Infof (creatingLine a ⟨Path.Join [d, a]⟩),
          Event.resolveContext (if len c ≠ 0 then some c else none),
          Event.NewInitCmd a ⟨Path.Join [d, a]⟩ s (some u) (some n), Event.Run]⟩) := by
  refine ⟨?_, RunE_of_length_ne w flags args, ?_, ?_, ?_, ?_, ?_, ?_⟩
  · by_cases hlen : args.length ≠ 1
    · rw [RunE_of_length_ne w flags args hlen]
      constructor
      · intro h
        cases h
      · rintro ⟨a, _, _, _, _, _, _, rfl, _⟩
        exact absurd rfl hlen
    · obtain ⟨a, rfl⟩ := eq_singleton_of_length args hlen
      cases hd : w.Getwd with
      | error e => simp [RunE_of_Getwd_error w flags a e hd]
      | ok d =>
        cases hs : flags.GetString flagAPISpec with
        | error e => simp [RunE_of_spec_error w flags a d e hd hs]
        | ok s =>
          cases hc : flags.GetString flagEnvContext with
          | error e => simp [RunE_of_context_error w flags a d s e hd hs hc]
          | ok c =>
            cases hr : w.resolveContext (if len c ≠ 0 then some c else none) with
            | error e =>
              rw [RunE_of_resolve_error w flags a d s c e hd hs hc hr]
              constructor
              · intro h
                cases h
              · rintro ⟨a1, d1, s1, c1, u1, n1, cmd1, ha, hd1, hs1, hc1, hr1, _⟩
                cases hd1
                cases hc1
                rw [hr] at hr1
                cases hr1
            | ok p =>
              obtain ⟨u, n⟩ := p
              cases hn : w.NewInitCmd a ⟨Path.Join [d, a]⟩ s (some u) (some n) with
              | error e =>
                rw [RunE_of_NewInitCmd_error w flags a d s c u n e hd hs hc hr hn]
                constructor
                · intro h
                  cases h
                · rintro ⟨a1, d1, s1, c1, u1, n1, cmd1, ha, hd1, hs1, hc1, hr1, hn1, _⟩
                  cases ha
                  cases hd1
                  cases hs1
                  cases hc1
                  rw [hr] at hr1
                  cases hr1
                  rw [hn] at hn1
                  cases hn1
              | ok cmd =>
                rw [RunE_of_NewInitCmd_ok w flags a d s c u n cmd hd hs hc hr hn]
                constructor
                · intro h
                  exact ⟨a, d, s, c, u, n, cmd, rfl, rfl, rfl, rfl, hr, hn, h⟩
                · rintro ⟨a1, d1, s1, c1, u1, n1, cmd1, ha, hd1, hs1, hc1, hr1, hn1, hrun⟩
                  cases ha
                  cases hd1
                  cases hs1
                  cases hc1
                  rw [hr] at hr1
                  cases hr1
                  rw [hn] at hn1
                  cases hn1
                  exact hrun
  · rintro a e rfl hd
    exact RunE_of_Getwd_error w flags a e hd
  · rintro a d e rfl hd hs
    exact RunE_of_spec_error w flags a d e hd hs
  · rintro a d s e rfl hd hs hc
    exact RunE_of_context_error w flags a d s e hd hs hc
  · rintro a d s c e rfl hd hs hc hr
    exact RunE_of_resolve_error w flags a d s c e hd hs hc hr
  · rintro a d s c u n e rfl hd hs hc hr hn
    exact RunE_of_NewInitCmd_error w flags a d s c u n e hd hs hc hr hn
  · rintro a d s c u n cmd e rfl hd hs hc hr hn hrun
    rw [RunE_of_NewInitCmd_ok w flags a d s c u n cmd hd hs hc hr hn, hrun]

/-- Witness for C1: with `--context=prod`, a context the kubeconfig does not
have, the run stops at `resolveContext` with its error; `NewInitCmd` and `Run`
are not called. -/
theorem RunE_short_circuits_witness :
    RunE sampleWorld prodFlags ["app"] =
      ⟨some ⟨"context 'prod' does not exist in the kubeconfig file"⟩,
        [Event.Getwd, Event.GetString "api-spec", Event.GetString "context",
          Event.Infof "Creating a new app 'app' at path '/home/u/app'",
          Event.resolveContext (some "prod")]⟩ :=
  (RunE_short_circuits sampleWorld prodFlags ["app"]).2.2.2.2.2.1
    "app" "/home/u" "version:v1.7.0" "prod"
    ⟨"context 'prod' does not exist in the kubeconfig file"⟩ rfl rfl rfl rfl rfl

/-- C8: `init` takes exactly one positional argument.  For every argument list
whose length is not 1, whatever the flags and the environment, `RunE` returns
the error "'init' takes a single argument that names the application we're
initializing", and it calls nothing. -/
theorem RunE_wrong_argument_count {Cmd : Type} (w : World Cmd) (flags : FlagSet)
    (args : List GoString) (h : args.length ≠ 1) :
    (RunE w flags args).err =
        some ⟨"'init' takes a single argument that names the application we're initializing"⟩ ∧
      (RunE w flags args).trace = [] := by
  rw [RunE_of_length_ne w flags args h]
  exact ⟨rfl, rfl⟩

/-- Witness for C8: no argument at all. -/
theorem RunE_wrong_argument_count_witness :
    ([] : List GoString).length ≠ 1 ∧
      (RunE sampleWorld devFlags []).err =
        some ⟨"'init' takes a single argument that names the application we're initializing"⟩ ∧
      (RunE sampleWorld devFlags []).trace = [] :=
  ⟨by decide, RunE_wrong_argument_count sampleWorld devFlags [] (by decide)⟩

/-- C2, evaluated on `ks init app --context=dev --namespace=dc-west`: the
namespace flag holds `dc-west`, `resolveContext` returns the namespace `default`
recorded for `dev`, and the namespace `RunE` hands to `kubecfg.NewInitCmd` is
`default`: the flag does not override it. -/
theorem RunE_namespace_flag_not_applied :
    (init clientGoFlags).SetAll [("context", "dev"), ("namespace", "dc-west")] = .ok devFlags ∧
      devFlags.GetString flagEnvNamespace = .ok "dc-west" ∧
      sampleWorld.resolveContext (some "dev") = .ok ("https://dev:6443", "default") ∧
      RunE sampleWorld devFlags ["app"] =
        ⟨none, [Event.Getwd, Event.GetString "api-spec", Event.GetString "context",
          Event.Infof "Creating a new app 'app' at path '/home/u/app'",
          Event.resolveContext (some "dev"),
          Event.NewInitCmd "app" ⟨"/home/u/app"⟩ "version:v1.7.0" (some "https://dev:6443")
            (some "default"),
          Event.Run]⟩ :=
  ⟨rfl, rfl, rfl, rfl⟩

/-- C3, evaluated on `ks init app` with no `--api-spec`: the selector `RunE`
hands to `kubecfg.NewInitCmd` is `version:v1.7.0`, which designates the fixed
version tag `v1.7.0` and not the live cluster. -/
theorem RunE_default_selector_is_version_tag :
    (init clientGoFlags).SetAll [] = .ok (init clientGoFlags) ∧
      callsOfNewInitCmd (RunE sampleWorld (init clientGoFlags) ["app"]).trace =
        [("app", ⟨"/home/u/app"⟩, "version:v1.7.0", some "https://10.0.0.1:6443",
          some "kube-system")] ∧
      parseSpec "version:v1.7.0" = some (APISpecSource.VersionTag "v1.7.0") ∧
      parseSpec "version:v1.7.0" ≠ some APISpecSource.Live :=
  ⟨rfl, rfl, rfl, by decide⟩

/-- C4: the API-spec selector is passed through uninterpreted.  Whatever value
`s` the API-spec flag holds, the one call of `kubecfg.NewInitCmd` receives
exactly `s`; and when the command line did not name the flag, that value is
the default `version:v1.7.0` registered by `init`. -/
theorem RunE_selector_passed_through {Cmd : Type} (w : World Cmd) (flags : FlagSet)
    (a d s c u n : GoString) (hd : w.Getwd = .ok d)
    (hs : flags.GetString flagAPISpec = .ok s)
    (hc : flags.GetString flagEnvContext = .ok c)
    (hr : w.resolveContext (if len c ≠ 0 then some c else none) = .ok (u, n)) :
    callsOfNewInitCmd (RunE w flags [a]).trace =
        [(a, ⟨Path.Join [d, a]⟩, s, some u, some n)] ∧
      ∀ (clientGo : List Flag) (sets : List (GoString × GoString)),
        (init clientGo).SetAll sets = .ok flags → (∀ p ∈ sets, p.1 ≠ flagAPISpec) →
        callsOfNewInitCmd (RunE w flags [a]).trace =
          [(a, ⟨Path.Join [d, a]⟩, "version:v1.7.0", some u, some n)] := by
  refine ⟨callsOfNewInitCmd_of_resolve w flags a d s c u n hd hs hc hr, ?_⟩
  intro clientGo sets hsets hm
  have hdef := GetString_default clientGo sets flags hm hsets
  exact callsOfNewInitCmd_of_resolve w flags a d "version:v1.7.0" c u n hd hdef hc hr

/-- Witness for C4: the selector `file:swagger.json` reaches `NewInitCmd` as it
is, and after `--context=dev --namespace=dc-west`, which does not name the
flag, the selector handed over is the default. -/
theorem RunE_selector_passed_through_witness :
    callsOfNewInitCmd (RunE sampleWorld fileFlags ["app"]).trace =
        [("app", ⟨"/home/u/app"⟩, "file:swagger.json", some "https://10.0.0.1:6443",
          some "kube-system")] ∧
      callsOfNewInitCmd (RunE sampleWorld devFlags ["app"]).trace =
        [("app", ⟨"/home/u/app"⟩, "version:v1.7.0", some "https://dev:6443",
          some "default")] :=
  ⟨(RunE_selector_passed_through sampleWorld fileFlags "app" "/home/u" "file:swagger.json" ""
      "https://10.0.0.1:6443" "kube-system" rfl rfl rfl rfl).1,
    (RunE_selector_passed_through sampleWorld devFlags "app" "/home/u" "version:v1.7.0" "dev"
      "https://dev:6443" "default" rfl rfl rfl rfl).2 clientGoFlags
      [("context", "dev"), ("namespace", "dc-west")] rfl (by decide)⟩

/-- C5: the context flag becomes an optional context name.  `resolveContext`
is called once, with no context when the flag value is the empty string and
with exactly the flag value when it is not. -/
theorem RunE_context_argument {Cmd : Type} (w : World Cmd) (flags : FlagSet)
    (a d s c : GoString) (hd : w.Getwd = .ok d) (hs : flags.GetString flagAPISpec = .ok s)
    (hc : flags.GetString flagEnvContext = .ok c) :
    (c = "" → callsOfResolveContext (RunE w flags [a]).trace = [none]) ∧
      (c ≠ "" → callsOfResolveContext (RunE w flags [a]).trace = [some c]) := by
  rw [callsOfResolveContext_of_reads w flags a d s c hd hs hc]
  constructor
  · intro h
    rw [if_neg (not_not.mpr ((len_eq_zero_iff c).mpr h))]
  · intro h
    rw [if_pos (fun h0 => h ((len_eq_zero_iff c).mp h0))]

/-- Witness for C5: `--context=dev` gives the context `dev`, no `--context`
gives no context. -/
theorem RunE_context_argument_witness :
    callsOfResolveContext (RunE sampleWorld devFlags ["app"]).trace = [some "dev"] ∧
      callsOfResolveContext (RunE sampleWorld fileFlags ["app"]).trace = [none] :=
  ⟨(RunE_context_argument sampleWorld devFlags "app" "/home/u" "version:v1.7.0" "dev"
      rfl rfl rfl).2 (by decide),
    (RunE_context_argument sampleWorld fileFlags "app" "/home/u" "file:swagger.json" ""
      rfl rfl rfl).1 rfl⟩

/-- C6: the application root is the working directory joined with the
application name.  The line logged names `a` and
`metadata.AbsPath(path.Join(d, a))`, and when `resolveContext` succeeds the
name and root handed to `kubecfg.NewInitCmd` are `a` and that same root. -/
theorem RunE_root_is_joined_path {Cmd : Type} (w : World Cmd) (flags : FlagSet)
    (a d s c : GoString) (hd : w.Getwd = .ok d) (hs : flags.GetString flagAPISpec = .ok s)
    (hc : flags.GetString flagEnvContext = .ok c) :
    linesLogged (RunE w flags [a]).trace =
        ["Creating a new app '" ++ a ++ "' at path '" ++
          (AbsPath.mk (Path.Join [d, a])).path ++ "'"] ∧
      ∀ u n, w.resolveContext (if len c ≠ 0 then some c else none) = .ok (u, n) →
        (callsOfNewInitCmd (RunE w flags [a]).trace).map (fun call => (call.1, call.2.1)) =
          [(a, AbsPath.mk (Path.Join [d, a]))] := by
  refine ⟨linesLogged_of_reads w flags a d s c hd hs hc, ?_⟩
  intro u n hr
  rw [callsOfNewInitCmd_of_resolve w flags a d s c u n hd hs hc hr]
  rfl

/-- Witness for C6: `ks init app` in `/home/u` has the root `/home/u/app`. -/
theorem RunE_root_is_joined_path_witness :
    linesLogged (RunE sampleWorld devFlags ["app"]).trace =
        ["Creating a new app 'app' at path '/home/u/app'"] ∧
      (callsOfNewInitCmd (RunE sampleWorld devFlags ["app"]).trace).map
          (fun call => (call.1, call.2.1)) = [("app", AbsPath.mk "/home/u/app")] :=
  ⟨(RunE_root_is_joined_path sampleWorld devFlags "app" "/home/u" "version:v1.7.0" "dev"
      rfl rfl rfl).1,
    (RunE_root_is_joined_path sampleWorld devFlags "app" "/home/u" "version:v1.7.0" "dev"
      rfl rfl rfl).2 "https://dev:6443" "default" rfl⟩

/-- C7 as stated fails: in `/home/u`, with collaborators that succeed, the
names `""`, `"a/b"` and `".."` are each handed to `kubecfg.NewInitCmd` and the
run returns `nil`. -/
theorem RunE_invalid_name_counterexample :
    RunE sampleWorld (init clientGoFlags) [""] =
        ⟨none, [Event.Getwd, Event.GetString "api-spec", Event.GetString "context",
          Event.Infof "Creating a new app '' at path '/home/u'",
          Event.resolveContext none,
          Event.NewInitCmd "" ⟨"/home/u"⟩ "version:v1.7.0" (some "https://10.0.0.1:6443")
            (some "kube-system"),
          Event.Run]⟩ ∧
      RunE sampleWorld (init clientGoFlags) ["a/b"] =
        ⟨none, [Event.Getwd, Event.GetString "api-spec", Event.GetString "context",
          Event.Infof "Creating a new app 'a/b' at path '/home/u/a/b'",
          Event.resolveContext none,
          Event.NewInitCmd "a/b" ⟨"/home/u/a/b"⟩ "version:v1.7.0"
            (some "https://10.0.0.1:6443") (some "kube-system"),
          Event.Run]⟩ ∧
      RunE sampleWorld (init clientGoFlags) [".."] =
        ⟨none, [Event.Getwd, Event.GetString "api-spec", Event.GetString "context",
          Event.Infof "Creating a new app '..' at path '/home'",
          Event.resolveContext none,
          Event.NewInitCmd ".." ⟨"/home"⟩ "version:v1.7.0" (some "https://10.0.0.1:6443")
            (some "kube-system"),
          Event.Run]⟩ :=
  ⟨rfl, rfl, rfl⟩

/-- C7, amended: `RunE` applies no check of its own to the application name.
For every single argument `a`, once `os.Getwd`, the two flag reads and
`resolveContext` have succeeded, `a` is the name handed to
`kubecfg.NewInitCmd`, and the run returns `nil` exactly when `NewInitCmd` and
`Run` accept it. -/
theorem RunE_name_not_checked {Cmd : Type} (w : World Cmd) (flags : FlagSet)
    (a d s c u n : GoString) (hd : w.Getwd = .ok d)
    (hs : flags.GetString flagAPISpec = .ok s)
    (hc : flags.GetString flagEnvContext = .ok c)
    (hr : w.resolveContext (if len c ≠ 0 then some c else none) = .ok (u, n)) :
    (callsOfNewInitCmd (RunE w flags [a]).trace).map (fun call => call.1) = [a] ∧
      ((RunE w flags [a]).err = none ↔
        ∃ cmd, w.NewInitCmd a ⟨Path.Join [d, a]⟩ s (some u) (some n) = .ok cmd ∧
          w.Run cmd = none) := by
  constructor
  · rw [callsOfNewInitCmd_of_resolve w flags a d s c u n hd hs hc hr]
    rfl
  · rw [err_of_resolve w flags a d s c u n hd hs hc hr]
    cases hn : w.NewInitCmd a ⟨Path.Join [d, a]⟩ s (some u) (some n) with
    | error e => simp
    | ok cmd => simp

/-- Witness for C7, amended: the name `a/b` is handed over and the run
succeeds. -/
theorem RunE_name_not_checked_witness :
    (callsOfNewInitCmd (RunE sampleWorld (init clientGoFlags) ["a/b"]).trace).map
        (fun call => call.1) = ["a/b"] ∧
      (RunE sampleWorld (init clientGoFlags) ["a/b"]).err = none :=
  ⟨(RunE_name_not_checked sampleWorld (init clientGoFlags) "a/b" "/home/u" "version:v1.7.0" ""
      "https://10.0.0.1:6443" "kube-system" rfl rfl rfl rfl).1,
    (RunE_name_not_checked sampleWorld (init clientGoFlags) "a/b" "/home/u" "version:v1.7.0" ""
      "https://10.0.0.1:6443" "kube-system" rfl rfl rfl rfl).2.mpr ⟨(), rfl, rfl⟩⟩

/-- C9: empty cluster coordinates are not an error.  Whatever pair
`(uri, namespace)` `resolveContext` returns without error, the empty pair
included, `RunE` goes on to call `kubecfg.NewInitCmd` with both coordinates
present and unchanged, and its result is that of `NewInitCmd` and `Run`. -/
theorem RunE_coordinates_passed_on {Cmd : Type} (w : World Cmd) (flags : FlagSet)
    (a d s c u n : GoString) (hd : w.Getwd = .ok d)
    (hs : flags.GetString flagAPISpec = .ok s)
    (hc : flags.GetString flagEnvContext = .ok c)
    (hr : w.resolveContext (if len c ≠ 0 then some c else none) = .ok (u, n)) :
    callsOfNewInitCmd (RunE w flags [a]).trace =
        [(a, ⟨Path.Join [d, a]⟩, s, some u, some n)] ∧
      (RunE w flags [a]).err =
        (match w.NewInitCmd a ⟨Path.Join [d, a]⟩ s (some u) (some n) with
        | .error e => some e
        | .ok cmd => w.Run cmd) :=
  ⟨callsOfNewInitCmd_of_resolve w flags a d s c u n hd hs hc hr,
    err_of_resolve w flags a d s c u n hd hs hc hr⟩

/-- Witness for C9: without a kubeconfig the coordinates are empty, and both
reach `NewInitCmd` as present empty strings; the run succeeds. -/
theorem RunE_coordinates_passed_on_witness :
    bareWorld.resolveContext none = .ok ("", "") ∧
      callsOfNewInitCmd (RunE bareWorld (init clientGoFlags) ["app"]).trace =
        [("app", ⟨"/home/u/app"⟩, "version:v1.7.0", some "", some "")] ∧
      (RunE bareWorld (init clientGoFlags) ["app"]).err = none :=
  ⟨rfl,
    RunE_coordinates_passed_on bareWorld (init clientGoFlags) "app" "/home/u" "version:v1.7.0"
      "" "" "" rfl rfl rfl rfl⟩

/-- C10: every run of `RunE` that returns `nil` has logged the line
"Creating a new app '<name>' at path '<root>'" exactly once, with the
application name and the computed root, and no other line. -/
theorem RunE_success_logs_once {Cmd : Type} (w : World Cmd) (flags : FlagSet)
    (args : List GoString) (h : (RunE w flags args).err = none) :
    ∃ a d, args = [a] ∧ w.Getwd = .ok d ∧
      linesLogged (RunE w flags args).trace =
        ["Creating a new app '" ++ a ++ "' at path '" ++
          (AbsPath.mk (Path.Join [d, a])).path ++ "'"] ∧
      (RunE w flags args).trace.count
        (Event.Infof ("Creating a new app '" ++ a ++ "' at path '" ++
          (AbsPath.mk (Path.Join [d, a])).path ++ "'")) = 1 := by
  obtain ⟨a, d, s, c, rfl, hd, hs, hc⟩ := reads_of_success w flags args h
  refine ⟨a, d, rfl, hd, linesLogged_of_reads w flags a d s c hd hs hc, ?_⟩
  rw [count_Infof, linesLogged_of_reads w flags a d s c hd hs hc]
  exact List.count_singleton_self _

/-- Witness for C10: `ks init app` in `/home/u` logs its line once. -/
theorem RunE_success_logs_once_witness :
    (RunE sampleWorld devFlags ["app"]).err = none ∧
      ∃ a d, ["app"] = [a] ∧ sampleWorld.Getwd = .ok d ∧
        linesLogged (RunE sampleWorld devFlags ["app"]).trace =
          ["Creating a new app '" ++ a ++ "' at path '" ++
            (AbsPath.mk (Path.Join [d, a])).path ++ "'"] ∧
        (RunE sampleWorld devFlags ["app"]).trace.count
          (Event.Infof ("Creating a new app '" ++ a ++ "' at path '" ++
            (AbsPath.mk (Path.Join [d, a])).path ++ "'")) = 1 :=
  ⟨rfl, RunE_success_logs_once sampleWorld devFlags ["app"] rfl⟩

end Ksonnet
